import Mathlib

/-!
Verification of `gcode-transform.py` (repository liyanage/gcode-transform).

The program rewrites G02/G03 arc commands that use an `R` (radius) word into
the equivalent `I`/`J` (center-offset) form.  This file gives a shallow
embedding of the program in Lean 4 and proves properties of it:

* Python floats are modelled as real numbers (`ℝ`), so floating tolerance
  becomes exact equality; `math.sqrt` is `Real.sqrt` (guarded by the domain
  check that `math.sqrt` performs), `math.atan2` is the complex argument.
* Fallible operations (Python exceptions: `float()` parse errors, the
  `No intersection` exception, `ZeroDivisionError` on float division by zero,
  `math domain error`, a failed `assert`) are modelled with `Except`.
* The regular-expression scans of `push_line`
  (`re.match(r'\bG0*[01]\b\s*', ...)`, `re.match(r'\bG0*[23]\b\s*', ...)`,
  `re.findall(r'(X|Y|Z)([\d.-]+)', ...)`, `re.findall(r'R([\d.-]+)', ...)`,
  `re.findall(r'\bG0*([23])\b', ...)`, `re.sub(radius_re, ...)`) are modelled
  by executable scanners over `List Char` that are faithful to the semantics
  of those concrete patterns on the anchored/scanned positions.
-/

namespace GcodeTransform

/-- Python `re` word character for `\b` boundaries: `[A-Za-z0-9_]`
(the source operates on ASCII byte strings, no `re.UNICODE`). -/
def isWordChar (c : Char) : Bool := c.isAlphanum || c = '_'

/-- Character class `[\d.-]` used by the axis-value and radius-value tokens. -/
def isNumChar (c : Char) : Bool := c.isDigit || c = '.' || c = '-'

/-- Python `str.strip()` whitespace set (used by `process_line`). -/
def isPySpace (c : Char) : Bool :=
  c = ' ' || c = '\t' || c = '\n' || c = '\r' || c = '\x0b' || c = '\x0c'

/-- Model of Python `line.strip()` from `GcodeProcessor.process_line`. -/
def pyStrip (l : List Char) : List Char :=
  ((l.dropWhile isPySpace).reverse.dropWhile isPySpace).reverse

/-- A `\b` word boundary holds between the end of a just-matched word run and
the rest of the input: it requires the next character (if any) to be a
non-word character. -/
def boundaryAt : List Char → Bool
  | [] => true
  | c :: _ => !(isWordChar c)

/-- Model of `re.match(r'\bG0*[01]\b\s*', line)` as a Boolean (the source only
tests the match for truthiness).  Anchored at position 0, the leading `\b`
holds because `G` is a word character; `0*[01]\b` succeeds (with backtracking
over the zero run) iff after some prefix of the zero run a `0` or `1` is
consumed and a word boundary follows; the trailing `\s*` always matches. -/
def matchG01 : List Char → Bool
  | 'G' :: t =>
    let zs := t.takeWhile (fun c => c = '0')
    match t.dropWhile (fun c => c = '0') with
    | [] => !zs.isEmpty
    | c :: rest2 => (c = '1' && boundaryAt rest2) || (!zs.isEmpty && !isWordChar c)
  | _ => false

/-- Model of `re.match(r'\bG0*[23]\b\s*', line)` combined with the direction
lookup `re.findall(r'\bG0*([23])\b', line)[0]`: returns the captured digit of
the match at position 0 when it exists.  Unlike `[01]`, the class `[23]` is
disjoint from `0`, so the greedy zero run cannot backtrack and the captured
digit is exactly the first non-`0` character of the tail. -/
def g23digit : List Char → Option Char
  | 'G' :: t =>
    match t.dropWhile (fun c => c = '0') with
    | c :: rest2 => if (c = '2' || c = '3') && boundaryAt rest2 then some c else none
    | [] => none
  | _ => none

/-- Scanner for `re.findall(r'(X|Y|Z)([\d.-]+)', line)`: left-to-right,
non-overlapping, greedy value runs.  The fuel argument (instantiated with the
list length, an upper bound on the number of scan steps) makes the recursion
structural so that concrete evaluation reduces in the kernel. -/
def scanAxes : Nat → List Char → List (Char × List Char)
  | 0, _ => []
  | _ + 1, [] => []
  | fuel + 1, c :: rest =>
    if c = 'X' || c = 'Y' || c = 'Z' then
      let run := rest.takeWhile isNumChar
      if run.isEmpty then scanAxes fuel rest
      else (c, run) :: scanAxes fuel (rest.drop run.length)
    else scanAxes fuel rest

/-- Model of `re.findall(r'(X|Y|Z)([\d.-]+)', line)`. -/
def findAxes (l : List Char) : List (Char × List Char) := scanAxes l.length l

/-- Scanner for `radius_re.findall(line)` with `radius_re = R([\d.-]+)`. -/
def scanRadii : Nat → List Char → List (List Char)
  | 0, _ => []
  | _ + 1, [] => []
  | fuel + 1, c :: rest =>
    if c = 'R' then
      let run := rest.takeWhile isNumChar
      if run.isEmpty then scanRadii fuel rest
      else run :: scanRadii fuel (rest.drop run.length)
    else scanRadii fuel rest

/-- Model of `radius_re.findall(line)`. -/
def findRadii (l : List Char) : List (List Char) := scanRadii l.length l

/-- Scanner for `re.sub(radius_re, offset_word, line)`: every non-overlapping
match of `R([\d.-]+)` is replaced by `repl` (the replacement text used by the
source contains no backslash escapes, so `re.sub` inserts it verbatim). -/
def subRadiusAux (repl : List Char) : Nat → List Char → List Char
  | 0, l => l
  | _ + 1, [] => []
  | fuel + 1, c :: rest =>
    if c = 'R' then
      let run := rest.takeWhile isNumChar
      if run.isEmpty then c :: subRadiusAux repl fuel rest
      else repl ++ subRadiusAux repl fuel (rest.drop run.length)
    else c :: subRadiusAux repl fuel rest

/-- Model of `re.sub(radius_re, repl, line)`. -/
def subRadius (repl l : List Char) : List Char := subRadiusAux repl l.length l

/-- True iff the line contains at least one match of `R([\d.-]+)`. -/
def hasRTok : List Char → Bool
  | [] => false
  | c :: rest => ((c == 'R') && !(rest.takeWhile isNumChar).isEmpty) || hasRTok rest

/-- True iff the list does not begin with a `[\d.-]` character (used to state
that a radius-value run is maximal). -/
def headNotNum : List Char → Bool
  | [] => true
  | c :: _ => !isNumChar c

/-- Numeric value of a digit run. -/
def natVal (ds : List Char) : ℕ := ds.foldl (fun n c => 10 * n + (c.toNat - '0'.toNat)) 0

/-- Unsigned part of Python `float()` on a token matched by `[\d.-]+`:
accepts `digits`, `digits.`, `.digits`, `digits.digits` and rejects
everything else (a remaining `-` or a second `.` is a `ValueError`).
Returns the value as a decimal `(numerator, number of fraction digits)`. -/
def parseUnsigned (s : List Char) : Option (ℕ × ℕ) :=
  let ip := s.takeWhile Char.isDigit
  match s.dropWhile Char.isDigit with
  | [] => if ip.isEmpty then none else some (natVal ip, 0)
  | '.' :: rest =>
    if rest.all Char.isDigit && !(ip.isEmpty && rest.isEmpty) then
      some (natVal ip * 10 ^ rest.length + natVal rest, rest.length)
    else none
  | _ => none

/-- Model of Python `float()` on a token matched by `[\d.-]+`: an optional
leading minus sign, then an unsigned decimal.  The result `(n, k)` denotes
the exact value `n / 10^k`. -/
def parseFloat : List Char → Option (ℤ × ℕ)
  | '-' :: rest => (parseUnsigned rest).map (fun p => (-(p.1 : ℤ), p.2))
  | s => (parseUnsigned s).map (fun p => ((p.1 : ℤ), p.2))

/-- Decimal rendering of `m / 10000` as produced by `'{}'.format(...)` in
Python 2 on the rounded float: integer part, a dot, and the four fraction
digits with trailing zeros removed but at least one digit kept (so `5.0`,
`3.0001`, `-8.6603`, `0.0`).  This is the exact Python output for the value
magnitudes arising here (below 10^8, where the 12-significant-digit str
conversion of Python 2 shows all four decimals exactly). -/
def fmt4 (m : ℤ) : List Char :=
  let sign : List Char := if m < 0 then ['-'] else []
  let n := m.natAbs
  let ip := n / 10000
  let fp := n % 10000
  let ds := Nat.toDigits 10 fp
  let padded := List.replicate (4 - ds.length) '0' ++ ds
  let trimmed := (padded.reverse.dropWhile (fun c => c = '0')).reverse
  let frac := if trimmed.isEmpty then ['0'] else trimmed
  sign ++ Nat.toDigits 10 ip ++ ['.'] ++ frac

noncomputable section

/-- Model of `math.atan2(y, x)` by the argument of the complex number
`x + y·i`, which has the same value in `(-π, π]` (signed floating zeros,
where the two differ on the negative real axis, do not exist in `ℝ`). -/
def atan2 (y x : ℝ) : ℝ := Complex.arg ⟨x, y⟩

/-- Source class `Vector2D` (fields `u`, `v`). -/
@[ext]
structure Vector2D where
  u : ℝ
  v : ℝ

/-- Source class `Point2D` (fields `x`, `y`). -/
@[ext]
structure Point2D where
  x : ℝ
  y : ℝ

/-- Source class `Point3D` (fields `x`, `y`, `z`, all defaulting to 0,
so `Point3D()` is the origin). -/
@[ext]
structure Point3D where
  x : ℝ := 0
  y : ℝ := 0
  z : ℝ := 0

/-- Source `Vector2D.angle_to_vector`: both bearings are computed with
`atan2` and mapped from `[-π, π]` into `[0, 2π)` by adding `2π` to negative
values; the result is their difference. -/
def Vector2D.angle_to_vector (self other : Vector2D) : ℝ :=
  let a := atan2 self.v self.u
  let a' := if a < 0 then a + 2 * Real.pi else a
  let a2 := atan2 other.v other.u
  let a2' := if a2 < 0 then a2 + 2 * Real.pi else a2
  a2' - a'

/-- Source `Point2D.distance_to_point`. -/
def Point2D.distance_to_point (self other : Point2D) : ℝ :=
  let x := self.x - other.x
  let y := self.y - other.y
  Real.sqrt (x * x + y * y)

/-- Source `Point2D.interpolate_to_point`; the `assert 0 <= ratio <= 1`
(an `AssertionError` on violation) is modelled by returning `none`.
The binder is named `ratio` in the source. -/
def Point2D.interpolate_to_point (self other : Point2D) (t : ℝ) : Option Point2D :=
  if 0 ≤ t ∧ t ≤ 1 then
    some ⟨(1 - t) * self.x + t * other.x, (1 - t) * self.y + t * other.y⟩
  else none

/-- Source `Point2D.vector_to_point`. -/
def Point2D.vector_to_point (self other : Point2D) : Vector2D :=
  ⟨other.x - self.x, other.y - self.y⟩

/-- Source `Point3D.point2d` (projection that drops `z`). -/
def Point3D.point2d (self : Point3D) : Point2D := ⟨self.x, self.y⟩

/-- Python exceptions that `GcodeProcessor.push_line` can raise:
`Exception('No intersection')`, `ValueError: math domain error` from
`math.sqrt` of a negative number, `AssertionError` from
`interpolate_to_point`, `ZeroDivisionError` from float division by zero,
and `ValueError` from `float()` on a malformed token. -/
inductive GcodeError where
  | noIntersection
  | mathDomain
  | assertionFailed
  | zeroDivision
  | valueError
  deriving DecidableEq

/-- Exact value denoted by a parsed decimal `(n, k)`, namely `n / 10^k`
(the float produced by Python `float()`). -/
def decVal (q : ℤ × ℕ) : ℝ := (q.1 : ℝ) / 10 ^ q.2

/-- The arc-reconstruction block of `GcodeProcessor.push_line`
(source lines 116-152), factored as a function of the data it reads:
the current position projected to 2D (`self_2d`), the arc end point,
the radius, and the rotation direction (`ccw` is `command[0] == '3'`).
Divisions `... / distance` in the candidate-center coordinates use
`self.position.x`/`self.position.y`, which equal `self_2d.x`/`self_2d.y`.
Python float division by zero raises `ZeroDivisionError`, checked here
before the divisions; `math.sqrt` of a negative argument raises
`ValueError: math domain error`, checked before taking the root. -/
def arc_center (self_2d arc_end_point : Point2D) (radius : ℝ) (ccw : Bool) :
    Except GcodeError Point2D :=
  let distance := self_2d.distance_to_point arc_end_point
  if distance > 2 * radius then .error .noIntersection
  else if radius * radius - distance / 2 * distance / 2 < 0 then .error .mathDomain
  else
    let h := Real.sqrt (radius * radius - distance / 2 * distance / 2)
    match self_2d.interpolate_to_point arc_end_point 0.5 with
    | none => .error .assertionFailed
    | some midpoint =>
      if distance = 0 then .error .zeroDivision
      else
        let x3_1 := midpoint.x + h * (arc_end_point.y - self_2d.y) / distance
        let x3_2 := midpoint.x + (-h) * (arc_end_point.y - self_2d.y) / distance
        let y3_1 := midpoint.y + (-h) * (arc_end_point.x - self_2d.x) / distance
        let y3_2 := midpoint.y + h * (arc_end_point.x - self_2d.x) / distance
        let p3_1 : Point2D := ⟨x3_1, y3_1⟩
        let p3_2 : Point2D := ⟨x3_2, y3_2⟩
        let v := self_2d.vector_to_point arc_end_point
        let v1 := self_2d.vector_to_point p3_1
        let v2 := self_2d.vector_to_point p3_2
        let a1 := v.angle_to_vector v1
        let a1' := if a1 > Real.pi then a1 - 2 * Real.pi else a1
        let a2 := v.angle_to_vector v2
        let a2' := if a2 > Real.pi then a2 - 2 * Real.pi else a2
        let center := if ccw then (if a2' > a1' then p3_2 else p3_1)
                      else (if a2' < a1' then p3_2 else p3_1)
        .ok center

/-- Body of the `for axis, value in axes` loop of `Point3D.update_from_axes`
for one pair whose value has already been parsed. -/
def updAxis (p : Point3D) (axis : Char) (value : ℝ) : Point3D :=
  if axis = 'X' then { p with x := value }
  else if axis = 'Y' then { p with y := value }
  else if axis = 'Z' then { p with z := value }
  else p

/-- Source `Point3D.update_from_axes`: each pair's value string is converted
with `float(value)` (a malformed token raises `ValueError`, modelled as
`none`) and the named axis field is overwritten; axes not named are left
unchanged.  An axis letter outside `X`/`Y`/`Z` cannot occur (the regex only
captures those), in which case the loop body would do nothing. -/
def update_from_axes (p : Point3D) : List (Char × List Char) → Option Point3D
  | [] => some p
  | (axis, w) :: rest =>
    match parseFloat w with
    | none => none
    | some value => update_from_axes (updAxis p axis (decVal value)) rest

/-- Formatting of one offset component: `round(c, 4)` on the float `c`
followed by `'{}'.format(... + 0.0)`.  Python `round` rounds the binary
double half-to-even; on the values arising here the double never sits
exactly on a decimal tie, and the result coincides with `round` on `ℝ`
(nearest integer multiple of `1/10000`, halves up).  The `+ 0.0` in the
source only normalizes `-0.0` to `0.0`; in `ℝ`, and in `fmt4` on `ℤ`,
there is no negative zero, so it needs no counterpart. -/
def fmtR (c : ℝ) : List Char := fmt4 (round (c * 10000))

/-- The offset word `'I{}J{}'.format(round(offset_vector.u, 4) + 0.0,
round(offset_vector.v, 4) + 0.0)` from source line 155. -/
def offset_word (offset_vector : Vector2D) : List Char :=
  'I' :: fmtR offset_vector.u ++ 'J' :: fmtR offset_vector.v

/-- Tail of `push_line`: `if axes: self.position.update_from_axes(axes)`
followed by `self.output_lines.append(line)`.  The guard is omitted because
updating with an empty pair list is the identity (and cannot raise).  The
emitted line is returned together with the new position. -/
def updateAndEmit (position : Point3D) (axes : List (Char × List Char))
    (line : List Char) : Except GcodeError (Point3D × List Char) :=
  match update_from_axes position axes with
  | none => .error .valueError
  | some p => .ok (p, line)

/-- Source `GcodeProcessor.push_line` acting on the processor state
(`self.position`); returns the updated position and the emitted line, or the
first exception raised.  In the arc branch the source parses the radius
(line 110), builds the arc end point by updating a fresh `Point3D()` with
the axis pairs (lines 111-113), projects the current position (line 114),
runs the reconstruction (lines 116-152), formats the offset word (line 155)
and substitutes it for every radius-token match (line 157).  The direction
digit is looked up by `re.findall(r'\bG0*([23])\b', line)[0]` (line 146),
which for a line whose start matched `\bG0*[23]\b` is the digit of that
initial match. -/
def push_line (position : Point3D) (line : List Char) :
    Except GcodeError (Point3D × List Char) :=
  if matchG01 line then
    updateAndEmit position (findAxes line) line
  else
    match g23digit line with
    | none => updateAndEmit position [] line
    | some code_digit =>
      let axes := findAxes line
      match findRadii line with
      | [] => updateAndEmit position axes line
      | radius_word :: _ =>
        match parseFloat radius_word with
        | none => .error .valueError
        | some radius =>
          match update_from_axes {} axes with
          | none => .error .valueError
          | some arc_end_point3 =>
            let self_2d := position.point2d
            match arc_center self_2d arc_end_point3.point2d (decVal radius)
                (code_digit == '3') with
            | .error e => .error e
            | .ok center =>
              let offset_vector := self_2d.vector_to_point center
              updateAndEmit position axes (subRadius (offset_word offset_vector) line)

/-- Source `GcodeProcessor.process_line`: strip the line, then `push_line`. -/
def process_line (position : Point3D) (line : String) :
    Except GcodeError (Point3D × List Char) :=
  push_line position (pyStrip line.data)

/-- Source `Tool.process_file` loop: feed the lines in order to one
processor, collecting the emitted lines; the first exception aborts the
whole run. -/
def process_lines (position : Point3D) :
    List String → Except GcodeError (Point3D × List (List Char))
  | [] => .ok (position, [])
  | l :: ls =>
    match process_line position l with
    | .error e => .error e
    | .ok (p, out) =>
      match process_lines p ls with
      | .error e => .error e
      | .ok res => .ok (res.1, out :: res.2)

end

/-! Helper lemmas about the geometry layer. -/

theorem interpolate_half (S E : Point2D) :
    S.interpolate_to_point E 0.5 =
      some ⟨(1 - 0.5) * S.x + 0.5 * E.x, (1 - 0.5) * S.y + 0.5 * E.y⟩ := by
  rw [Point2D.interpolate_to_point, if_pos (by norm_num)]

theorem atan2_neg_of_neg (y x : ℝ) (hy : y < 0) : atan2 y x < 0 :=
  Complex.arg_neg_iff.mpr hy

theorem atan2_nonneg (y x : ℝ) (hy : 0 ≤ y) : 0 ≤ atan2 y x :=
  Complex.arg_nonneg_iff.mpr hy

theorem atan2_le_pi (y x : ℝ) : atan2 y x ≤ Real.pi :=
  Complex.arg_le_pi _

theorem neg_pi_lt_atan2 (y x : ℝ) : -Real.pi < atan2 y x :=
  Complex.neg_pi_lt_arg _

theorem atan2_zero_nonneg (x : ℝ) (hx : 0 ≤ x) : atan2 0 x = 0 := by
  have hz : (⟨x, 0⟩ : ℂ) = (x : ℂ) := by
    apply Complex.ext <;> simp
  rw [atan2, hz, Complex.arg_ofReal_of_nonneg hx]

theorem distance_nonneg (S E : Point2D) : 0 ≤ S.distance_to_point E := by
  simp only [Point2D.distance_to_point]
  exact Real.sqrt_nonneg _

theorem distance_pos (S E : Point2D) (hne : S ≠ E) : 0 < S.distance_to_point E := by
  simp only [Point2D.distance_to_point]
  apply Real.sqrt_pos.mpr
  have hne2 : S.x - E.x ≠ 0 ∨ S.y - E.y ≠ 0 := by
    by_contra hc
    push_neg at hc
    exact hne (Point2D.ext (by linarith [hc.1]) (by linarith [hc.2]))
  rcases hne2 with h1 | h1
  · exact add_pos_of_pos_of_nonneg (mul_self_pos.mpr h1) (mul_self_nonneg _)
  · exact add_pos_of_nonneg_of_pos (mul_self_nonneg _) (mul_self_pos.mpr h1)

theorem distance_self (S : Point2D) : S.distance_to_point S = 0 := by
  simp only [Point2D.distance_to_point, sub_self, mul_zero, add_zero, Real.sqrt_zero]

/-- Both candidate centers lie at distance `r` from each chord end point:
the underlying polynomial identity, with `t` standing for `h / d` and the
sign `e` selecting the candidate. -/
theorem circle_dist (A B d t r e : ℝ) (he : e = 1 ∨ e = -1)
    (e1 : d ^ 2 = A ^ 2 + B ^ 2) (e2 : t ^ 2 * d ^ 2 = r * r - d / 2 * d / 2) :
    (A / 2 + e * t * B) * (A / 2 + e * t * B) + (B / 2 - e * t * A) * (B / 2 - e * t * A)
      = r ^ 2 := by
  rcases he with rfl | rfl
  · linear_combination (-(1 / 4) - t ^ 2) * e1 + e2
  · linear_combination (-(1 / 4) - t ^ 2) * e1 + e2

/-- On every input with positive chord length at most the diameter, the
reconstruction succeeds and the returned center is at distance exactly the
radius from both the start and the end point. -/
theorem arc_center_spec (S E : Point2D) (r : ℝ) (ccw : Bool)
    (hd0 : 0 < S.distance_to_point E) (hle : S.distance_to_point E ≤ 2 * r) :
    ∃ C, arc_center S E r ccw = .ok C ∧
      S.distance_to_point C = r ∧ E.distance_to_point C = r := by
  set d := S.distance_to_point E with hdDef
  have hr : 0 < r := by linarith
  have hsum : 0 ≤ (S.x - E.x) * (S.x - E.x) + (S.y - E.y) * (S.y - E.y) :=
    add_nonneg (mul_self_nonneg _) (mul_self_nonneg _)
  have hd2 : d ^ 2 = (S.x - E.x) ^ 2 + (S.y - E.y) ^ 2 := by
    have h1 : d ^ 2 = (S.x - E.x) * (S.x - E.x) + (S.y - E.y) * (S.y - E.y) := by
      rw [hdDef]
      simp only [Point2D.distance_to_point]
      exact Real.sq_sqrt hsum
    nlinarith [h1]
  have hrho : 0 ≤ r * r - d / 2 * d / 2 := by nlinarith
  have hdne : d ≠ 0 := ne_of_gt hd0
  set h := Real.sqrt (r * r - d / 2 * d / 2) with hhDef
  have hh2 : h ^ 2 = r * r - d / 2 * d / 2 := Real.sq_sqrt hrho
  set t := h / d with htDef
  have ht2 : t ^ 2 * d ^ 2 = r * r - d / 2 * d / 2 := by
    rw [htDef, div_pow, div_mul_cancel₀ _ (pow_ne_zero 2 hdne)]
    exact hh2
  have hcv1 : ∀ a : ℝ, h * a / d = t * a := by
    intro a; rw [htDef]; ring
  have hcv2 : ∀ a : ℝ, -h * a / d = -(t * a) := by
    intro a; rw [htDef]; ring
  have dS1 : S.distance_to_point
      ⟨(1 - 0.5) * S.x + 0.5 * E.x + h * (E.y - S.y) / d,
       (1 - 0.5) * S.y + 0.5 * E.y + -h * (E.x - S.x) / d⟩ = r := by
    simp only [Point2D.distance_to_point, hcv1, hcv2]
    have key := circle_dist (S.x - E.x) (S.y - E.y) d t r (-1) (Or.inr rfl) hd2 ht2
    rw [show (S.x - ((1 - 0.5) * S.x + 0.5 * E.x + t * (E.y - S.y))) *
        (S.x - ((1 - 0.5) * S.x + 0.5 * E.x + t * (E.y - S.y))) +
        (S.y - ((1 - 0.5) * S.y + 0.5 * E.y + -(t * (E.x - S.x)))) *
        (S.y - ((1 - 0.5) * S.y + 0.5 * E.y + -(t * (E.x - S.x)))) = r ^ 2 from by
      linear_combination key]
    exact Real.sqrt_sq hr.le
  have dE1 : E.distance_to_point
      ⟨(1 - 0.5) * S.x + 0.5 * E.x + h * (E.y - S.y) / d,
       (1 - 0.5) * S.y + 0.5 * E.y + -h * (E.x - S.x) / d⟩ = r := by
    simp only [Point2D.distance_to_point, hcv1, hcv2]
    have key := circle_dist (E.x - S.x) (E.y - S.y) d t r 1 (Or.inl rfl)
      (by linear_combination hd2) (by linear_combination ht2)
    rw [show (E.x - ((1 - 0.5) * S.x + 0.5 * E.x + t * (E.y - S.y))) *
        (E.x - ((1 - 0.5) * S.x + 0.5 * E.x + t * (E.y - S.y))) +
        (E.y - ((1 - 0.5) * S.y + 0.5 * E.y + -(t * (E.x - S.x)))) *
        (E.y - ((1 - 0.5) * S.y + 0.5 * E.y + -(t * (E.x - S.x)))) = r ^ 2 from by
      linear_combination key]
    exact Real.sqrt_sq hr.le
  have dS2 : S.distance_to_point
      ⟨(1 - 0.5) * S.x + 0.5 * E.x + -h * (E.y - S.y) / d,
       (1 - 0.5) * S.y + 0.5 * E.y + h * (E.x - S.x) / d⟩ = r := by
    simp only [Point2D.distance_to_point, hcv1, hcv2]
    have key := circle_dist (S.x - E.x) (S.y - E.y) d t r 1 (Or.inl rfl) hd2 ht2
    rw [show (S.x - ((1 - 0.5) * S.x + 0.5 * E.x + -(t * (E.y - S.y)))) *
        (S.x - ((1 - 0.5) * S.x + 0.5 * E.x + -(t * (E.y - S.y)))) +
        (S.y - ((1 - 0.5) * S.y + 0.5 * E.y + t * (E.x - S.x))) *
        (S.y - ((1 - 0.5) * S.y + 0.5 * E.y + t * (E.x - S.x))) = r ^ 2 from by
      linear_combination key]
    exact Real.sqrt_sq hr.le
  have dE2 : E.distance_to_point
      ⟨(1 - 0.5) * S.x + 0.5 * E.x + -h * (E.y - S.y) / d,
       (1 - 0.5) * S.y + 0.5 * E.y + h * (E.x - S.x) / d⟩ = r := by
    simp only [Point2D.distance_to_point, hcv1, hcv2]
    have key := circle_dist (E.x - S.x) (E.y - S.y) d t r (-1) (Or.inr rfl)
      (by linear_combination hd2) (by linear_combination ht2)
    rw [show (E.x - ((1 - 0.5) * S.x + 0.5 * E.x + -(t * (E.y - S.y)))) *
        (E.x - ((1 - 0.5) * S.x + 0.5 * E.x + -(t * (E.y - S.y)))) +
        (E.y - ((1 - 0.5) * S.y + 0.5 * E.y + t * (E.x - S.x))) *
        (E.y - ((1 - 0.5) * S.y + 0.5 * E.y + t * (E.x - S.x))) = r ^ 2 from by
      linear_combination key]
    exact Real.sqrt_sq hr.le
  simp only [arc_center, ← hdDef, interpolate_half, ← hhDef]
  rw [if_neg (not_lt.mpr hle), if_neg (not_lt.mpr hrho), if_neg hdne]
  split_ifs
  all_goals first
    | exact ⟨_, rfl, dS1, dE1⟩
    | exact ⟨_, rfl, dS2, dE2⟩

/-- With a zero-length chord the reconstruction reaches the candidate-center
divisions and fails with `ZeroDivisionError` (radius nonnegative, so the
`distance > 2 * radius` test does not fire first). -/
theorem arc_center_zero_dist (S E : Point2D) (r : ℝ) (ccw : Bool)
    (hd : S.distance_to_point E = 0) (hr : 0 ≤ r) :
    arc_center S E r ccw = .error .zeroDivision := by
  simp only [arc_center, hd, interpolate_half]
  rw [if_neg (not_lt.mpr (by linarith)),
    if_neg (not_lt.mpr (by nlinarith [mul_self_nonneg r])), if_pos trivial]

/-- Evaluation of the reconstruction on a clockwise arc over a horizontal
chord travelled left to right: the selected center is the lower candidate. -/
theorem arc_center_horiz (sx sy ex r : ℝ) (hlt : sx < ex) (hle : ex - sx ≤ 2 * r) :
    arc_center ⟨sx, sy⟩ ⟨ex, sy⟩ r false =
      .ok ⟨(sx + ex) / 2, sy - Real.sqrt (r * r - (ex - sx) / 2 * (ex - sx) / 2)⟩ := by
  have hdpos : 0 < ex - sx := sub_pos.mpr hlt
  have hd : Point2D.distance_to_point ⟨sx, sy⟩ ⟨ex, sy⟩ = ex - sx := by
    simp only [Point2D.distance_to_point, sub_self, mul_zero, add_zero,
      Real.sqrt_mul_self_eq_abs]
    rw [abs_sub_comm]
    exact abs_of_pos hdpos
  have hrho : 0 ≤ r * r - (ex - sx) / 2 * (ex - sx) / 2 := by nlinarith
  have hdne : ex - sx ≠ 0 := ne_of_gt hdpos
  set h := Real.sqrt (r * r - (ex - sx) / 2 * (ex - sx) / 2) with hhDef
  have hh0 : 0 ≤ h := Real.sqrt_nonneg _
  have hdiv : ∀ a : ℝ, a * (ex - sx) / (ex - sx) = a := fun a => by field_simp
  have hv1 : (1 - 0.5) * sy + 0.5 * sy + -h - sy = -h := by ring
  have hv2 : (1 - 0.5) * sy + 0.5 * sy + h - sy = h := by ring
  have hu : (1 - 0.5) * sx + 0.5 * ex - sx = (ex - sx) / 2 := by ring
  simp only [arc_center, hd, interpolate_half, ← hhDef]
  rw [if_neg (not_lt.mpr hle), if_neg (not_lt.mpr hrho), if_neg hdne]
  simp only [Point2D.vector_to_point, Vector2D.angle_to_vector, sub_self, mul_zero,
    zero_div, add_zero, hdiv, hv1, hv2, hu]
  rw [atan2_zero_nonneg (ex - sx) hdpos.le]
  rw [if_neg (lt_irrefl (0 : ℝ))]
  rw [if_neg Bool.false_ne_true]
  by_cases hc : h = 0
  · rw [hc]
    simp only [neg_zero]
    rw [atan2_zero_nonneg ((ex - sx) / 2) (by positivity)]
    rw [if_neg (lt_irrefl (0 : ℝ))]
    simp only [sub_zero]
    rw [if_neg (not_lt.mpr Real.pi_nonneg)]
    rw [if_neg (lt_irrefl (0 : ℝ))]
    refine congrArg Except.ok ?_
    apply Point2D.ext <;> ring
  · have hpos : 0 < h := lt_of_le_of_ne hh0 (Ne.symm hc)
    rw [if_pos (atan2_neg_of_neg (-h) ((ex - sx) / 2) (neg_lt_zero.mpr hpos))]
    rw [if_neg (not_lt.mpr (atan2_nonneg h ((ex - sx) / 2) hh0))]
    rw [if_pos (show atan2 (-h) ((ex - sx) / 2) + 2 * Real.pi - 0 > Real.pi from by
      have := neg_pi_lt_atan2 (-h) ((ex - sx) / 2); linarith)]
    rw [if_neg (show ¬(atan2 h ((ex - sx) / 2) - 0 > Real.pi) from
      not_lt.mpr (by have := atan2_le_pi h ((ex - sx) / 2); linarith))]
    rw [if_neg (show ¬(atan2 h ((ex - sx) / 2) - 0 <
        atan2 (-h) ((ex - sx) / 2) + 2 * Real.pi - 0 - 2 * Real.pi) from
      not_lt.mpr (by
        have h1 := atan2_neg_of_neg (-h) ((ex - sx) / 2) (neg_lt_zero.mpr hpos)
        have h2 := atan2_nonneg h ((ex - sx) / 2) hh0
        linarith))]
    refine congrArg Except.ok ?_
    apply Point2D.ext <;> ring

/-! Helper lemmas about the rewriter layer. -/

theorem updAxis_X (p : Point3D) (v : ℝ) : updAxis p 'X' v = { p with x := v } := by
  rw [updAxis, if_pos rfl]

theorem updAxis_Y (p : Point3D) (v : ℝ) : updAxis p 'Y' v = { p with y := v } := by
  rw [updAxis, if_neg (by decide), if_pos rfl]

theorem updAxis_Z (p : Point3D) (v : ℝ) : updAxis p 'Z' v = { p with z := v } := by
  rw [updAxis, if_neg (by decide), if_neg (by decide), if_pos rfl]

theorem updAxis_x_of_ne (p : Point3D) (a : Char) (v : ℝ) (ha : a ≠ 'X') :
    (updAxis p a v).x = p.x := by
  rw [updAxis]; split_ifs <;> simp_all

theorem updAxis_y_of_ne (p : Point3D) (a : Char) (v : ℝ) (ha : a ≠ 'Y') :
    (updAxis p a v).y = p.y := by
  rw [updAxis]; split_ifs <;> simp_all

theorem updAxis_z_of_ne (p : Point3D) (a : Char) (v : ℝ) (ha : a ≠ 'Z') :
    (updAxis p a v).z = p.z := by
  rw [updAxis]; split_ifs <;> simp_all

/-- Unfolding of the arc branch of `push_line`: on an arc-move line with a
radius token, the result is obtained by running `arc_center` on the
pre-update position (projected to 2D) and on the end point built by applying
the axis pairs to a fresh origin `Point3D()` (projected to 2D), then
substituting the formatted offset word and applying the position update. -/
theorem push_line_arc (position : Point3D) (line : List Char) (code_digit : Char)
    (radius_word : List Char) (q : ℤ × ℕ) (arc_end_point3 : Point3D)
    (hm : matchG01 line = false)
    (hg : g23digit line = some code_digit)
    (hr : (findRadii line).head? = some radius_word)
    (hp : parseFloat radius_word = some q)
    (hu : update_from_axes {} (findAxes line) = some arc_end_point3) :
    push_line position line =
      (arc_center position.point2d arc_end_point3.point2d (decVal q)
          (code_digit == '3')).bind
        (fun center =>
          updateAndEmit position (findAxes line)
            (subRadius (offset_word (position.point2d.vector_to_point center)) line)) := by
  obtain ⟨tail, htail⟩ : ∃ t, findRadii line = radius_word :: t := by
    cases hfr : findRadii line with
    | nil => rw [hfr] at hr; simp at hr
    | cons a t =>
      rw [hfr] at hr
      simp only [List.head?_cons, Option.some.injEq] at hr
      exact ⟨t, by rw [hr]⟩
  simp only [push_line, hm, Bool.false_eq_true, if_false, hg, htail, hp, hu]
  cases harc : arc_center position.point2d arc_end_point3.point2d (decVal q)
      (code_digit == '3') with
  | error e => simp [harc, Except.bind]
  | ok c => simp [harc, Except.bind]

theorem subRadiusAux_no_match (repl : List Char) :
    ∀ fuel l, l.length ≤ fuel → hasRTok l = false → subRadiusAux repl fuel l = l := by
  intro fuel
  induction fuel with
  | zero => intro l _ _; rfl
  | succ f ih =>
    intro l hl hn
    cases l with
    | nil => rfl
    | cons c rest =>
      simp only [hasRTok, Bool.or_eq_false_iff] at hn
      obtain ⟨h1, h2⟩ := hn
      have hlen : rest.length ≤ f := by
        simp only [List.length_cons] at hl; omega
      simp only [subRadiusAux]
      by_cases hc : c = 'R'
      · subst hc
        have he : (rest.takeWhile isNumChar).isEmpty = true := by
          cases hcase : (rest.takeWhile isNumChar).isEmpty with
          | true => rfl
          | false => rw [hcase] at h1; simp at h1
        rw [if_pos rfl, if_pos he, ih rest hlen h2]
      · rw [if_neg hc, ih rest hlen h2]

theorem subRadiusAux_single (repl num suf : List Char)
    (hnum : num ≠ []) (hall : num.all isNumChar = true)
    (hhead : headNotNum suf = true) (hsuf : hasRTok suf = false) :
    ∀ fuel pre, pre.length + 1 + num.length + suf.length ≤ fuel →
      hasRTok pre = false →
      subRadiusAux repl fuel (pre ++ ('R' :: (num ++ suf))) = pre ++ (repl ++ suf) := by
  have hallm : ∀ a ∈ num, isNumChar a = true := List.all_eq_true.mp hall
  have htw : (num ++ suf).takeWhile isNumChar = num := by
    rw [List.takeWhile_append_of_pos hallm]
    have hsw : suf.takeWhile isNumChar = [] := by
      cases suf with
      | nil => rfl
      | cons c cs =>
        simp only [headNotNum, Bool.not_eq_true'] at hhead
        rw [List.takeWhile_cons, hhead]
        simp
    rw [hsw, List.append_nil]
  intro fuel pre
  induction pre generalizing fuel with
  | nil =>
    intro hfuel hpre
    cases fuel with
    | zero => exfalso; simp only [List.length_nil] at hfuel; omega
    | succ f =>
      have hsuflen : suf.length ≤ f := by
        simp only [List.length_nil] at hfuel; omega
      have hne : num.isEmpty = false := by
        cases num with
        | nil => exact absurd rfl hnum
        | cons a l => rfl
      simp only [List.nil_append, subRadiusAux, htw, hne]
      rw [if_pos trivial, if_neg Bool.false_ne_true, List.drop_left,
        subRadiusAux_no_match repl f suf hsuflen hsuf]
  | cons c pre' ih =>
    intro hfuel hpre
    cases fuel with
    | zero => exfalso; simp only [List.length_cons] at hfuel; omega
    | succ f =>
      simp only [hasRTok, Bool.or_eq_false_iff] at hpre
      obtain ⟨h1, h2⟩ := hpre
      have hlen : pre'.length + 1 + num.length + suf.length ≤ f := by
        simp only [List.length_cons] at hfuel; omega
      simp only [List.cons_append, subRadiusAux, List.append_eq]
      by_cases hc : c = 'R'
      · subst hc
        have hrunE : ((pre' ++ ('R' :: (num ++ suf))).takeWhile isNumChar).isEmpty = true := by
          cases pre' with
          | nil =>
            simp only [List.nil_append]
            rw [List.takeWhile_cons]
            simp [isNumChar]
          | cons p0 ps =>
            have hp0 : isNumChar p0 = false := by
              cases hcase : isNumChar p0 with
              | false => rfl
              | true =>
                rw [List.takeWhile_cons, hcase] at h1
                simp at h1
            simp only [List.cons_append]
            rw [List.takeWhile_cons, hp0]
            simp
        rw [if_pos rfl, if_pos hrunE, ih f hlen h2]
      · rw [if_neg hc, ih f hlen h2]

theorem round_50000 : round ((5 : ℝ) * 10000) = 50000 := by
  rw [show ((5 : ℝ) * 10000) = ((50000 : ℤ) : ℝ) by norm_num, round_intCast]

theorem round_25000 : round ((5 / 2 : ℝ) * 10000) = 25000 := by
  rw [show ((5 / 2 : ℝ) * 10000) = ((25000 : ℤ) : ℝ) by norm_num, round_intCast]

theorem round_neg_sqrt75 : round (-Real.sqrt 75 * 10000) = -86603 := by
  have h1 : (8.66025 : ℝ) < Real.sqrt 75 :=
    (Real.lt_sqrt (by norm_num)).mpr (by norm_num)
  have h2 : Real.sqrt 75 < 8.66035 :=
    (Real.sqrt_lt' (by norm_num)).mpr (by norm_num)
  rw [round_eq, Int.floor_eq_iff]
  push_cast
  constructor <;> nlinarith

theorem round_neg_sqrt754 : round (-Real.sqrt (75 / 4) * 10000) = -43301 := by
  have h1 : (4.33012 : ℝ) < Real.sqrt (75 / 4) :=
    (Real.lt_sqrt (by norm_num)).mpr (by norm_num)
  have h2 : Real.sqrt (75 / 4) < 4.33013 :=
    (Real.sqrt_lt' (by norm_num)).mpr (by norm_num)
  rw [round_eq, Int.floor_eq_iff]
  push_cast
  constructor <;> nlinarith

theorem round_30001 : round ((3.00005 : ℝ) * 10000) = 30001 := by
  rw [round_eq, show ((3.00005 : ℝ) * 10000 + 1 / 2) = ((30001 : ℤ) : ℝ) by norm_num,
    Int.floor_intCast]

theorem round_neg_00004 : round ((-0.00004 : ℝ) * 10000) = 0 := by
  rw [round_eq, Int.floor_eq_iff]
  push_cast
  constructor <;> norm_num

/-! Concrete evaluations used by the end-to-end examples. -/

theorem upd_x10_y0 :
    update_from_axes ⟨0, 0, 0⟩ [('X', "10".data), ('Y', "0".data)] = some ⟨10, 0, 0⟩ := by
  simp only [update_from_axes,
    show parseFloat "10".data = some ((10 : ℤ), 0) from by decide,
    show parseFloat "0".data = some ((0 : ℤ), 0) from by decide, updAxis_X, updAxis_Y]
  norm_num [decVal]

theorem upd_x5_y5 :
    update_from_axes ⟨0, 0, 0⟩ [('X', "5".data), ('Y', "5".data)] = some ⟨5, 5, 0⟩ := by
  simp only [update_from_axes,
    show parseFloat "5".data = some ((5 : ℤ), 0) from by decide, updAxis_X, updAxis_Y]
  norm_num [decVal]

theorem upd_x10_y5 :
    update_from_axes ⟨5, 5, 0⟩ [('X', "10".data), ('Y', "5".data)] = some ⟨10, 5, 0⟩ := by
  simp only [update_from_axes,
    show parseFloat "10".data = some ((10 : ℤ), 0) from by decide,
    show parseFloat "5".data = some ((5 : ℤ), 0) from by decide, updAxis_X, updAxis_Y]
  norm_num [decVal]

theorem upd_x3 :
    update_from_axes ⟨0, 0, 0⟩ [('X', "3".data)] = some ⟨3, 0, 0⟩ := by
  simp only [update_from_axes,
    show parseFloat "3".data = some ((3 : ℤ), 0) from by decide, updAxis_X]
  norm_num [decVal]

theorem upd_x3_y4 :
    update_from_axes ⟨0, 0, 0⟩ [('X', "3".data), ('Y', "4".data)] = some ⟨3, 4, 0⟩ := by
  simp only [update_from_axes,
    show parseFloat "3".data = some ((3 : ℤ), 0) from by decide,
    show parseFloat "4".data = some ((4 : ℤ), 0) from by decide, updAxis_X, updAxis_Y]
  norm_num [decVal]

theorem arc_c4 : arc_center ⟨0, 0⟩ ⟨10, 0⟩ 10 false = .ok ⟨5, -Real.sqrt 75⟩ := by
  rw [arc_center_horiz 0 0 10 10 (by norm_num) (by norm_num)]
  refine congrArg Except.ok ?_
  apply Point2D.ext
  · norm_num
  · rw [show ((10 : ℝ) * 10 - (10 - 0) / 2 * (10 - 0) / 2) = 75 by norm_num]
    ring

theorem arc_l2 : arc_center ⟨5, 5⟩ ⟨10, 5⟩ 5 false = .ok ⟨15 / 2, 5 - Real.sqrt (75 / 4)⟩ := by
  rw [arc_center_horiz 5 5 10 5 (by norm_num) (by norm_num)]
  refine congrArg Except.ok ?_
  apply Point2D.ext
  · norm_num
  · rw [show ((5 : ℝ) * 5 - (10 - 5) / 2 * (10 - 5) / 2) = 75 / 4 by norm_num]

theorem arc_c2_fail : arc_center ⟨0, 5⟩ ⟨3, 0⟩ (5 / 2) false = .error .noIntersection := by
  have hd : Point2D.distance_to_point ⟨0, 5⟩ ⟨3, 0⟩ = Real.sqrt 34 := by
    simp only [Point2D.distance_to_point]
    norm_num
  simp only [arc_center, hd]
  rw [if_pos (show Real.sqrt 34 > 2 * (5 / 2) from by
    have h := (Real.lt_sqrt (by norm_num : (0 : ℝ) ≤ 5)).mpr (by norm_num : (5 : ℝ) ^ 2 < 34)
    linarith)]

theorem arc_c5_fail : arc_center ⟨0, 0⟩ ⟨10, 5⟩ 5 false = .error .noIntersection := by
  have hd : Point2D.distance_to_point ⟨0, 0⟩ ⟨10, 5⟩ = Real.sqrt 125 := by
    simp only [Point2D.distance_to_point]
    norm_num
  simp only [arc_center, hd]
  rw [if_pos (show Real.sqrt 125 > 2 * 5 from by
    have h := (Real.lt_sqrt (by norm_num : (0 : ℝ) ≤ 10)).mpr
      (by norm_num : (10 : ℝ) ^ 2 < 125)
    linarith)]

theorem fmtR_5 : fmtR 5 = "5.0".data := by
  rw [fmtR, round_50000]; decide

theorem fmtR_neg_sqrt75 : fmtR (-Real.sqrt 75) = "-8.6603".data := by
  rw [fmtR, round_neg_sqrt75]; decide

theorem fmtR_52 : fmtR (5 / 2) = "2.5".data := by
  rw [fmtR, round_25000]; decide

theorem fmtR_neg_sqrt754 : fmtR (-Real.sqrt (75 / 4)) = "-4.3301".data := by
  rw [fmtR, round_neg_sqrt754]; decide

theorem fmtR_300005 : fmtR 3.00005 = "3.0001".data := by
  rw [fmtR, round_30001]; decide

theorem fmtR_neg_00004 : fmtR (-0.00004) = "0.0".data := by
  rw [fmtR, round_neg_00004]; decide

theorem offset_word_c9 : offset_word ⟨3.00005, -0.00004⟩ = "I3.0001J0.0".data := by
  simp only [offset_word, fmtR_300005, fmtR_neg_00004]
  decide

theorem push_c4 : push_line ⟨0, 0, 0⟩ ("G2 X10 Y0 R10".data) =
    .ok (⟨10, 0, 0⟩, "G2 X10 Y0 I5.0J-8.6603".data) := by
  rw [push_line_arc ⟨0, 0, 0⟩ ("G2 X10 Y0 R10".data) '2' ("10".data) (10, 0) ⟨10, 0, 0⟩
    (by decide) (by decide) (by decide) (by decide)
    (by rw [show findAxes ("G2 X10 Y0 R10".data) = [('X', "10".data), ('Y', "0".data)]
          from by decide]
        exact upd_x10_y0)]
  rw [show Point3D.point2d ⟨0, 0, 0⟩ = (⟨0, 0⟩ : Point2D) from rfl,
    show Point3D.point2d ⟨10, 0, 0⟩ = (⟨10, 0⟩ : Point2D) from rfl,
    show decVal (10, 0) = 10 from by norm_num [decVal],
    show ('2' == '3') = false from rfl, arc_c4]
  simp only [Except.bind]
  rw [show Point2D.vector_to_point ⟨0, 0⟩ ⟨5, -Real.sqrt 75⟩ = ⟨5, -Real.sqrt 75⟩ from by
    apply Vector2D.ext <;> simp [Point2D.vector_to_point]]
  simp only [offset_word, fmtR_5, fmtR_neg_sqrt75]
  rw [show ('I' :: "5.0".data ++ 'J' :: "-8.6603".data) = "I5.0J-8.6603".data from by decide]
  rw [show subRadius ("I5.0J-8.6603".data) ("G2 X10 Y0 R10".data) =
    "G2 X10 Y0 I5.0J-8.6603".data from by decide]
  rw [show findAxes ("G2 X10 Y0 R10".data) = [('X', "10".data), ('Y', "0".data)] from by decide]
  rw [updateAndEmit, upd_x10_y0]

theorem push_c7 : push_line ⟨0, 0, 0⟩ ("G2 X10 Y0 R10 (R10)".data) =
    .ok (⟨10, 0, 0⟩, "G2 X10 Y0 I5.0J-8.6603 (I5.0J-8.6603)".data) := by
  rw [push_line_arc ⟨0, 0, 0⟩ ("G2 X10 Y0 R10 (R10)".data) '2' ("10".data) (10, 0) ⟨10, 0, 0⟩
    (by decide) (by decide) (by decide) (by decide)
    (by rw [show findAxes ("G2 X10 Y0 R10 (R10)".data) = [('X', "10".data), ('Y', "0".data)]
          from by decide]
        exact upd_x10_y0)]
  rw [show Point3D.point2d ⟨0, 0, 0⟩ = (⟨0, 0⟩ : Point2D) from rfl,
    show Point3D.point2d ⟨10, 0, 0⟩ = (⟨10, 0⟩ : Point2D) from rfl,
    show decVal (10, 0) = 10 from by norm_num [decVal],
    show ('2' == '3') = false from rfl, arc_c4]
  simp only [Except.bind]
  rw [show Point2D.vector_to_point ⟨0, 0⟩ ⟨5, -Real.sqrt 75⟩ = ⟨5, -Real.sqrt 75⟩ from by
    apply Vector2D.ext <;> simp [Point2D.vector_to_point]]
  simp only [offset_word, fmtR_5, fmtR_neg_sqrt75]
  rw [show ('I' :: "5.0".data ++ 'J' :: "-8.6603".data) = "I5.0J-8.6603".data from by decide]
  rw [show subRadius ("I5.0J-8.6603".data) ("G2 X10 Y0 R10 (R10)".data) =
    "G2 X10 Y0 I5.0J-8.6603 (I5.0J-8.6603)".data from by decide]
  rw [show findAxes ("G2 X10 Y0 R10 (R10)".data) = [('X', "10".data), ('Y', "0".data)]
    from by decide]
  rw [updateAndEmit, upd_x10_y0]

theorem push_c2 : push_line ⟨0, 5, 0⟩ ("G2 X3 R2.5".data) = .error .noIntersection := by
  rw [push_line_arc ⟨0, 5, 0⟩ ("G2 X3 R2.5".data) '2' ("2.5".data) (25, 1) ⟨3, 0, 0⟩
    (by decide) (by decide) (by decide) (by decide)
    (by rw [show findAxes ("G2 X3 R2.5".data) = [('X', "3".data)] from by decide]
        exact upd_x3)]
  rw [show Point3D.point2d ⟨0, 5, 0⟩ = (⟨0, 5⟩ : Point2D) from rfl,
    show Point3D.point2d ⟨3, 0, 0⟩ = (⟨3, 0⟩ : Point2D) from rfl,
    show decVal (25, 1) = 5 / 2 from by norm_num [decVal],
    show ('2' == '3') = false from rfl, arc_c2_fail]
  rfl

theorem push_l1 : push_line ⟨0, 0, 0⟩ ("G1 X5 Y5".data) =
    .ok (⟨5, 5, 0⟩, "G1 X5 Y5".data) := by
  rw [push_line, if_pos (by decide : matchG01 ("G1 X5 Y5".data) = true)]
  rw [show findAxes ("G1 X5 Y5".data) = [('X', "5".data), ('Y', "5".data)] from by decide]
  rw [updateAndEmit, upd_x5_y5]

theorem upd_x10_y5_origin :
    update_from_axes ⟨0, 0, 0⟩ [('X', "10".data), ('Y', "5".data)] = some ⟨10, 5, 0⟩ := by
  simp only [update_from_axes,
    show parseFloat "10".data = some ((10 : ℤ), 0) from by decide,
    show parseFloat "5".data = some ((5 : ℤ), 0) from by decide, updAxis_X, updAxis_Y]
  norm_num [decVal]

theorem push_l2 : push_line ⟨5, 5, 0⟩ ("G2 X10 Y5 R5".data) =
    .ok (⟨10, 5, 0⟩, "G2 X10 Y5 I2.5J-4.3301".data) := by
  rw [push_line_arc ⟨5, 5, 0⟩ ("G2 X10 Y5 R5".data) '2' ("5".data) (5, 0) ⟨10, 5, 0⟩
    (by decide) (by decide) (by decide) (by decide)
    (by rw [show findAxes ("G2 X10 Y5 R5".data) = [('X', "10".data), ('Y', "5".data)]
          from by decide]
        exact upd_x10_y5_origin)]
  rw [show Point3D.point2d ⟨5, 5, 0⟩ = (⟨5, 5⟩ : Point2D) from rfl,
    show Point3D.point2d ⟨10, 5, 0⟩ = (⟨10, 5⟩ : Point2D) from rfl,
    show decVal (5, 0) = 5 from by norm_num [decVal],
    show ('2' == '3') = false from rfl, arc_l2]
  simp only [Except.bind]
  rw [show Point2D.vector_to_point ⟨5, 5⟩ ⟨15 / 2, 5 - Real.sqrt (75 / 4)⟩ =
      ⟨5 / 2, -Real.sqrt (75 / 4)⟩ from by
    apply Vector2D.ext
    · show (15 : ℝ) / 2 - 5 = 5 / 2
      norm_num
    · show (5 - Real.sqrt (75 / 4)) - 5 = -Real.sqrt (75 / 4)
      ring]
  simp only [offset_word, fmtR_52, fmtR_neg_sqrt754]
  rw [show ('I' :: "2.5".data ++ 'J' :: "-4.3301".data) = "I2.5J-4.3301".data from by decide]
  rw [show subRadius ("I2.5J-4.3301".data) ("G2 X10 Y5 R5".data) =
    "G2 X10 Y5 I2.5J-4.3301".data from by decide]
  rw [show findAxes ("G2 X10 Y5 R5".data) = [('X', "10".data), ('Y', "5".data)] from by decide]
  rw [updateAndEmit, upd_x10_y5]

theorem process_c5 : process_lines ⟨0, 0, 0⟩ ["G1 X5 Y5", "G2 X10 Y5 R5"] =
    .ok (⟨10, 5, 0⟩, ["G1 X5 Y5".data, "G2 X10 Y5 I2.5J-4.3301".data]) := by
  have h1 : process_line ⟨0, 0, 0⟩ "G1 X5 Y5" = .ok (⟨5, 5, 0⟩, "G1 X5 Y5".data) := by
    rw [process_line,
      show pyStrip ("G1 X5 Y5" : String).data = "G1 X5 Y5".data from by decide, push_l1]
  have h2 : process_line ⟨5, 5, 0⟩ "G2 X10 Y5 R5" =
      .ok (⟨10, 5, 0⟩, "G2 X10 Y5 I2.5J-4.3301".data) := by
    rw [process_line,
      show pyStrip ("G2 X10 Y5 R5" : String).data = "G2 X10 Y5 R5".data from by decide,
      push_l2]
  simp only [process_lines, h1, h2]

theorem dist_0_10 : Point2D.distance_to_point ⟨0, 0⟩ ⟨10, 0⟩ = 10 := by
  simp only [Point2D.distance_to_point]
  rw [show ((0 : ℝ) - 10) * ((0 : ℝ) - 10) + ((0 : ℝ) - 0) * ((0 : ℝ) - 0) = 10 ^ 2 from by
    norm_num]
  exact Real.sqrt_sq (by norm_num)

theorem dist_05_35 : Point2D.distance_to_point ⟨0, 5⟩ ⟨3, 5⟩ = 3 := by
  simp only [Point2D.distance_to_point]
  rw [show ((0 : ℝ) - 3) * ((0 : ℝ) - 3) + ((5 : ℝ) - 5) * ((5 : ℝ) - 5) = 3 ^ 2 from by
    norm_num]
  exact Real.sqrt_sq (by norm_num)

/-! The claims. -/

/-- C1: for every start point `S`, end point `E`, radius `r` and rotation
direction with `distance(S, E) ≤ 2 r` (and `S ≠ E`, `r > 0`), the arc
reconstructor returns a center `C` with `distance(S, C) = r` and
`distance(E, C) = r` (exact equality: reals replace floats, so the floating
tolerance is zero). -/
theorem C1_center_at_radius (S E : Point2D) (r : ℝ) (ccw : Bool)
    (hne : S ≠ E) (_hr : 0 < r) (hle : S.distance_to_point E ≤ 2 * r) :
    ∃ C, arc_center S E r ccw = .ok C ∧
      S.distance_to_point C = r ∧ E.distance_to_point C = r :=
  arc_center_spec S E r ccw (distance_pos S E hne) hle

/-- C1 witness: the hypotheses hold and the conclusion follows at
`S = (0,0)`, `E = (10,0)`, `r = 10`, clockwise. -/
theorem C1_center_at_radius_witness :
    (⟨0, 0⟩ : Point2D) ≠ (⟨10, 0⟩ : Point2D) ∧ (0 : ℝ) < 10 ∧
    Point2D.distance_to_point ⟨0, 0⟩ ⟨10, 0⟩ ≤ 2 * 10 ∧
    ∃ C, arc_center ⟨0, 0⟩ ⟨10, 0⟩ 10 false = .ok C ∧
      Point2D.distance_to_point ⟨0, 0⟩ C = 10 ∧
      Point2D.distance_to_point ⟨10, 0⟩ C = 10 := by
  have hne : (⟨0, 0⟩ : Point2D) ≠ (⟨10, 0⟩ : Point2D) := by
    intro h
    exact absurd (congrArg Point2D.x h) (by norm_num)
  have hle : Point2D.distance_to_point ⟨0, 0⟩ ⟨10, 0⟩ ≤ 2 * 10 := by
    rw [dist_0_10]; norm_num
  exact ⟨hne, by norm_num, hle,
    C1_center_at_radius ⟨0, 0⟩ ⟨10, 0⟩ 10 false hne (by norm_num) hle⟩

/-- C2 counterexample: from position `(0, 5, 0)`, the line `G2 X3 R2.5`
fails with `NoIntersection` although the end point obtained by applying
`{X: 3}` to a copy of the current position, namely `(3, 5)`, lies within
`2 · radius` of the start `(0, 5)`.  The code instead applies the axis pairs
to a fresh origin `Point3D()`, producing the end point `(3, 0)` at distance
`√34 > 5` from the start. -/
theorem C2_counterexample :
    push_line ⟨0, 5, 0⟩ ("G2 X3 R2.5".data) = .error .noIntersection ∧
    Point2D.distance_to_point ⟨0, 5⟩ ⟨3, 5⟩ ≤ 2 * (5 / 2) := by
  refine ⟨push_c2, ?_⟩
  rw [dist_05_35]; norm_num

/-- C2 (amended): for every arc-move line with a radius token, the end point
handed to the arc reconstructor is obtained by applying the extracted axis
pairs to a freshly created origin `Point3D()` (axes not mentioned default to
0, not to the current position's values) projected to 2D, and the start
point is the pre-update current position projected to 2D. -/
theorem C2_arc_endpoint_from_origin (position : Point3D) (line : List Char)
    (code_digit : Char) (radius_word : List Char) (q : ℤ × ℕ) (arc_end_point3 : Point3D)
    (hm : matchG01 line = false)
    (hg : g23digit line = some code_digit)
    (hr : (findRadii line).head? = some radius_word)
    (hp : parseFloat radius_word = some q)
    (hu : update_from_axes {} (findAxes line) = some arc_end_point3) :
    push_line position line =
      (arc_center position.point2d arc_end_point3.point2d (decVal q)
          (code_digit == '3')).bind
        (fun center =>
          updateAndEmit position (findAxes line)
            (subRadius (offset_word (position.point2d.vector_to_point center)) line)) :=
  push_line_arc position line code_digit radius_word q arc_end_point3 hm hg hr hp hu

/-- C2 witness: the amended decomposition instantiated on the line
`G2 X3 R2.5` at position `(0, 5, 0)`. -/
theorem C2_arc_endpoint_from_origin_witness :
    push_line ⟨0, 5, 0⟩ ("G2 X3 R2.5".data) =
      (arc_center (Point3D.point2d ⟨0, 5, 0⟩) (Point3D.point2d ⟨3, 0, 0⟩) (decVal (25, 1))
          ('2' == '3')).bind
        (fun center =>
          updateAndEmit ⟨0, 5, 0⟩ (findAxes ("G2 X3 R2.5".data))
            (subRadius (offset_word ((Point3D.point2d ⟨0, 5, 0⟩).vector_to_point center))
              ("G2 X3 R2.5".data))) :=
  C2_arc_endpoint_from_origin ⟨0, 5, 0⟩ ("G2 X3 R2.5".data) '2' ("2.5".data) (25, 1)
    ⟨3, 0, 0⟩ (by decide) (by decide) (by decide) (by decide)
    (by rw [show findAxes ("G2 X3 R2.5".data) = [('X', "3".data)] from by decide]
        exact upd_x3)

/-- C3 counterexample: at `S = E = (0,0)` and `r = 1` the chord length `0`
satisfies `distance ≤ 2 r`, yet the reconstructor does not return a center:
it fails with the division-by-zero error from the candidate-center
divisions. -/
theorem C3_counterexample :
    arc_center ⟨0, 0⟩ ⟨0, 0⟩ 1 false = .error .zeroDivision ∧
    Point2D.distance_to_point ⟨0, 0⟩ ⟨0, 0⟩ ≤ 2 * 1 := by
  refine ⟨arc_center_zero_dist ⟨0, 0⟩ ⟨0, 0⟩ 1 false (distance_self _) (by norm_num), ?_⟩
  rw [distance_self]; norm_num

/-- C3 (amended): the reconstructor fails with `NoIntersection` when
`distance > 2 r`; when `distance = 0` (and `r ≥ 0`) it fails with the
division-by-zero error; for every input with `0 < distance ≤ 2 r` it
returns a center without error.  (It is a pure function of its inputs, so
there are no side effects.) -/
theorem C3_failure_modes (S E : Point2D) (r : ℝ) (ccw : Bool) :
    (S.distance_to_point E > 2 * r → arc_center S E r ccw = .error .noIntersection) ∧
    (S.distance_to_point E = 0 → 0 ≤ r → arc_center S E r ccw = .error .zeroDivision) ∧
    (0 < S.distance_to_point E → S.distance_to_point E ≤ 2 * r →
      ∃ C, arc_center S E r ccw = .ok C) := by
  refine ⟨?_, arc_center_zero_dist S E r ccw, ?_⟩
  · intro hgt
    simp only [arc_center]
    rw [if_pos hgt]
  · intro h1 h2
    obtain ⟨C, hC, -, -⟩ := arc_center_spec S E r ccw h1 h2
    exact ⟨C, hC⟩

/-- C3 witness: all three branches exercised at concrete inputs. -/
theorem C3_failure_modes_witness :
    arc_center ⟨0, 0⟩ ⟨10, 0⟩ 4 false = .error .noIntersection ∧
    arc_center ⟨0, 0⟩ ⟨0, 0⟩ 1 true = .error .zeroDivision ∧
    (∃ C, arc_center ⟨0, 0⟩ ⟨10, 0⟩ 10 false = .ok C) :=
  ⟨(C3_failure_modes ⟨0, 0⟩ ⟨10, 0⟩ 4 false).1 (by rw [dist_0_10]; norm_num),
   (C3_failure_modes ⟨0, 0⟩ ⟨0, 0⟩ 1 true).2.1 (distance_self _) (by norm_num),
   (C3_failure_modes ⟨0, 0⟩ ⟨10, 0⟩ 10 false).2.2
     (by rw [dist_0_10]; norm_num) (by rw [dist_0_10]; norm_num)⟩

/-- C4 counterexample: processing `G2 X10 Y0 R10` from `(0, 0, 0)` emits
`G2 X10 Y0 I5.0J-8.6603`, not the claimed `G2 X10 Y0 I5J0`: a center at
`(5, 0)` would be at distance 5, not 10, from the start, and Python formats
the rounded floats as `5.0` and `-8.6603`. -/
theorem C4_counterexample :
    push_line ⟨0, 0, 0⟩ ("G2 X10 Y0 R10".data) =
      .ok (⟨10, 0, 0⟩, "G2 X10 Y0 I5.0J-8.6603".data) ∧
    ("G2 X10 Y0 I5.0J-8.6603".data : List Char) ≠ "G2 X10 Y0 I5J0".data :=
  ⟨push_c4, by decide⟩

/-- C4 (amended): processing the line `G2 X10 Y0 R10` from start position
`(0, 0, 0)` rewrites the radius token to the offset token `I5.0J-8.6603`,
whose `(I, J)` places the circle center at `(5, -√75) ≈ (5, -8.6603)` -- a
point at distance exactly 10 from both `(0, 0)` and `(10, 0)`. -/
theorem C4_example_offset :
    push_line ⟨0, 0, 0⟩ ("G2 X10 Y0 R10".data) =
      .ok (⟨10, 0, 0⟩, "G2 X10 Y0 I5.0J-8.6603".data) ∧
    Point2D.distance_to_point ⟨0, 0⟩ ⟨5, -Real.sqrt 75⟩ = 10 ∧
    Point2D.distance_to_point ⟨10, 0⟩ ⟨5, -Real.sqrt 75⟩ = 10 := by
  have h75 : Real.sqrt 75 * Real.sqrt 75 = 75 := Real.mul_self_sqrt (by norm_num)
  refine ⟨push_c4, ?_, ?_⟩
  · simp only [Point2D.distance_to_point]
    rw [show ((0 : ℝ) - 5) * ((0 : ℝ) - 5) +
        ((0 : ℝ) - -Real.sqrt 75) * ((0 : ℝ) - -Real.sqrt 75) = 10 ^ 2 from by
      nlinarith [h75]]
    exact Real.sqrt_sq (by norm_num)
  · simp only [Point2D.distance_to_point]
    rw [show ((10 : ℝ) - 5) * ((10 : ℝ) - 5) +
        ((0 : ℝ) - -Real.sqrt 75) * ((0 : ℝ) - -Real.sqrt 75) = 10 ^ 2 from by
      nlinarith [h75]]
    exact Real.sqrt_sq (by norm_num)

/-- C5: processing `G1 X5 Y5` then `G2 X10 Y5 R5` from the origin succeeds:
the second line's arc is reconstructed from start `(5, 5)` -- the position
established by the first line, updated only after each line's
reconstruction -- and yields the same emitted line as processing it alone
from position `(5, 5, 0)`; its center `(15/2, 5 - √(75/4))` is at distance 5
from `(5, 5)`.  Had the start been `(0, 0)`, the reconstruction would
instead have failed with `NoIntersection` (chord `√125 > 10`). -/
theorem C5_sequential_state :
    process_lines ⟨0, 0, 0⟩ ["G1 X5 Y5", "G2 X10 Y5 R5"] =
      .ok (⟨10, 5, 0⟩, ["G1 X5 Y5".data, "G2 X10 Y5 I2.5J-4.3301".data]) ∧
    push_line ⟨5, 5, 0⟩ ("G2 X10 Y5 R5".data) =
      .ok (⟨10, 5, 0⟩, "G2 X10 Y5 I2.5J-4.3301".data) ∧
    Point2D.distance_to_point ⟨5, 5⟩ ⟨15 / 2, 5 - Real.sqrt (75 / 4)⟩ = 5 ∧
    arc_center ⟨0, 0⟩ ⟨10, 5⟩ 5 false = .error .noIntersection := by
  have hs : Real.sqrt (75 / 4) * Real.sqrt (75 / 4) = 75 / 4 :=
    Real.mul_self_sqrt (by norm_num)
  refine ⟨process_c5, push_l2, ?_, arc_c5_fail⟩
  simp only [Point2D.distance_to_point]
  rw [show ((5 : ℝ) - 15 / 2) * ((5 : ℝ) - 15 / 2) +
      ((5 : ℝ) - (5 - Real.sqrt (75 / 4))) * ((5 : ℝ) - (5 - Real.sqrt (75 / 4))) = 5 ^ 2
    from by nlinarith [hs]]
  exact Real.sqrt_sq (by norm_num)

/-- C6: applying a duplicate-free list of (axis, value) pairs to a
`SpatialPosition` overwrites exactly the axes named (each named axis becomes
the parsed value of its pair) and leaves every axis not named unchanged. -/
theorem C6_partial_update :
    ∀ (axes : List (Char × List Char)) (p p' : Point3D),
      (axes.map Prod.fst).Nodup →
      update_from_axes p axes = some p' →
      (('X' ∉ axes.map Prod.fst) → p'.x = p.x) ∧
      (('Y' ∉ axes.map Prod.fst) → p'.y = p.y) ∧
      (('Z' ∉ axes.map Prod.fst) → p'.z = p.z) ∧
      (∀ w q, ('X', w) ∈ axes → parseFloat w = some q → p'.x = decVal q) ∧
      (∀ w q, ('Y', w) ∈ axes → parseFloat w = some q → p'.y = decVal q) ∧
      (∀ w q, ('Z', w) ∈ axes → parseFloat w = some q → p'.z = decVal q) := by
  intro axes
  induction axes with
  | nil =>
    intro p p' _ hup
    simp only [update_from_axes, Option.some.injEq] at hup
    subst hup
    refine ⟨fun _ => rfl, fun _ => rfl, fun _ => rfl, ?_, ?_, ?_⟩ <;>
      intro w q hw _ <;> simp at hw
  | cons aw rest ih =>
    obtain ⟨a, w0⟩ := aw
    intro p p' hnd hup
    cases hw0 : parseFloat w0 with
    | none =>
      simp only [update_from_axes, hw0] at hup
      exact Option.noConfusion hup
    | some q0 =>
      simp only [update_from_axes, hw0] at hup
      have hnd0 := hnd
      simp only [List.map_cons, List.nodup_cons] at hnd0
      obtain ⟨hnotin, hnd'⟩ := hnd0
      obtain ⟨ihx, ihy, ihz, ihX, ihY, ihZ⟩ := ih (updAxis p a (decVal q0)) p' hnd' hup
      refine ⟨?_, ?_, ?_, ?_, ?_, ?_⟩
      · intro hx
        simp only [List.map_cons, List.mem_cons, not_or] at hx
        rw [ihx hx.2, updAxis_x_of_ne p a _ (fun h => hx.1 h.symm)]
      · intro hy
        simp only [List.map_cons, List.mem_cons, not_or] at hy
        rw [ihy hy.2, updAxis_y_of_ne p a _ (fun h => hy.1 h.symm)]
      · intro hz
        simp only [List.map_cons, List.mem_cons, not_or] at hz
        rw [ihz hz.2, updAxis_z_of_ne p a _ (fun h => hz.1 h.symm)]
      · intro w q hw hq
        rcases List.mem_cons.mp hw with heq | hmem
        · injection heq with ha hww
          subst hww
          rw [hw0] at hq
          rw [ihx (ha ▸ hnotin), ← ha, updAxis_X]
          show decVal q0 = decVal q
          rw [Option.some.inj hq]
        · exact ihX w q hmem hq
      · intro w q hw hq
        rcases List.mem_cons.mp hw with heq | hmem
        · injection heq with ha hww
          subst hww
          rw [hw0] at hq
          rw [ihy (ha ▸ hnotin), ← ha, updAxis_Y]
          show decVal q0 = decVal q
          rw [Option.some.inj hq]
        · exact ihY w q hmem hq
      · intro w q hw hq
        rcases List.mem_cons.mp hw with heq | hmem
        · injection heq with ha hww
          subst hww
          rw [hw0] at hq
          rw [ihz (ha ▸ hnotin), ← ha, updAxis_Z]
          show decVal q0 = decVal q
          rw [Option.some.inj hq]
        · exact ihZ w q hmem hq

/-- C6 witness: applying `{X: "5"}` to `(1, 2, 3)` yields `(5, 2, 3)`:
`Y` and `Z` unchanged and `X` overwritten with the parsed value 5. -/
theorem C6_partial_update_witness :
    update_from_axes ⟨1, 2, 3⟩ [('X', "5".data)] = some ⟨5, 2, 3⟩ ∧
    decVal (5, 0) = (5 : ℝ) ∧
    (⟨5, 2, 3⟩ : Point3D).y = (⟨1, 2, 3⟩ : Point3D).y ∧
    (⟨5, 2, 3⟩ : Point3D).z = (⟨1, 2, 3⟩ : Point3D).z ∧
    (⟨5, 2, 3⟩ : Point3D).x = decVal (5, 0) := by
  have hupd : update_from_axes ⟨1, 2, 3⟩ [('X', "5".data)] = some ⟨5, 2, 3⟩ := by
    simp only [update_from_axes,
      show parseFloat "5".data = some ((5 : ℤ), 0) from by decide, updAxis_X]
    norm_num [decVal]
  have H := C6_partial_update [('X', "5".data)] ⟨1, 2, 3⟩ ⟨5, 2, 3⟩ (by decide) hupd
  exact ⟨hupd, by norm_num [decVal], H.2.1 (by decide), H.2.2.1 (by decide),
    H.2.2.2.1 ("5".data) (5, 0) (by simp) (by decide)⟩

/-- C7 counterexample: `re.sub` replaces every radius-token match, so on the
line `G2 X10 Y0 R10 (R10)` the trailing-comment text `R10` is rewritten
too, instead of being left untouched. -/
theorem C7_counterexample :
    push_line ⟨0, 0, 0⟩ ("G2 X10 Y0 R10 (R10)".data) =
      .ok (⟨10, 0, 0⟩, "G2 X10 Y0 I5.0J-8.6603 (I5.0J-8.6603)".data) ∧
    ("G2 X10 Y0 I5.0J-8.6603 (I5.0J-8.6603)".data : List Char) ≠
      "G2 X10 Y0 I5.0J-8.6603 (R10)".data :=
  ⟨push_c7, by decide⟩

/-- C7 (amended): the substitution replaces every match of the radius-token
pattern; when the line contains exactly one radius token (no other match
before or after it), the offset text replaces exactly that token's span and
every other character of the line is left untouched. -/
theorem C7_single_token_replacement (repl pre num suf : List Char)
    (hpre : hasRTok pre = false) (hnum : num ≠ [])
    (hall : num.all isNumChar = true) (hhead : headNotNum suf = true)
    (hsuf : hasRTok suf = false) :
    subRadius repl (pre ++ ('R' :: (num ++ suf))) = pre ++ (repl ++ suf) := by
  rw [subRadius]
  refine subRadiusAux_single repl num suf hnum hall hhead hsuf _ pre ?_ hpre
  simp only [List.length_append, List.length_cons]
  omega

/-- C7 witness: one radius token `R5` in `G1 R5` is replaced by `Z`. -/
theorem C7_single_token_replacement_witness :
    subRadius ['Z'] ("G1 ".data ++ ('R' :: ("5".data ++ []))) =
      "G1 ".data ++ (['Z'] ++ []) :=
  C7_single_token_replacement ['Z'] ("G1 ".data) ("5".data) []
    (by decide) (by decide) (by decide) (by decide) (by decide)

/-- C8: under the precondition `distance ≤ 2 r` the radicand
`r² - (distance/2)²` is nonnegative -- in exact arithmetic the guarded
`math domain error` branch is unreachable, the square root is well-defined,
and the computation does not fail at that step. -/
theorem C8_radicand_nonneg (S E : Point2D) (r : ℝ) (ccw : Bool)
    (hle : S.distance_to_point E ≤ 2 * r) :
    0 ≤ r * r - S.distance_to_point E / 2 * S.distance_to_point E / 2 ∧
    arc_center S E r ccw ≠ .error .mathDomain := by
  have hd0 : 0 ≤ S.distance_to_point E := distance_nonneg S E
  have hrho : 0 ≤ r * r - S.distance_to_point E / 2 * S.distance_to_point E / 2 := by
    nlinarith
  refine ⟨hrho, ?_⟩
  simp only [arc_center, interpolate_half]
  by_cases hgt : S.distance_to_point E > 2 * r
  · rw [if_pos hgt]; simp
  · rw [if_neg hgt, if_neg (not_lt.mpr hrho)]
    by_cases hz : S.distance_to_point E = 0
    · rw [if_pos hz]; simp
    · rw [if_neg hz]; simp

/-- C8 witness: the radicand fact and non-failure at `S = (0,0)`,
`E = (10,0)`, `r = 10`. -/
theorem C8_radicand_nonneg_witness :
    Point2D.distance_to_point ⟨0, 0⟩ ⟨10, 0⟩ ≤ 2 * 10 ∧
    (0 ≤ 10 * 10 - Point2D.distance_to_point ⟨0, 0⟩ ⟨10, 0⟩ / 2 *
        Point2D.distance_to_point ⟨0, 0⟩ ⟨10, 0⟩ / 2 ∧
      arc_center ⟨0, 0⟩ ⟨10, 0⟩ 10 false ≠ .error .mathDomain) := by
  have hle : Point2D.distance_to_point ⟨0, 0⟩ ⟨10, 0⟩ ≤ 2 * 10 := by
    rw [dist_0_10]; norm_num
  exact ⟨hle, C8_radicand_nonneg ⟨0, 0⟩ ⟨10, 0⟩ 10 false hle⟩

/-- C9 counterexample: the offset vector `(3.00005, -0.00004)` is not
formatted as `I3.0001J0`: Python renders the rounded-and-normalized zero
float as `0.0`, not `0`. -/
theorem C9_counterexample :
    offset_word ⟨3.00005, -0.00004⟩ ≠ "I3.0001J0".data := by
  rw [offset_word_c9]
  decide

/-- C9 (amended): the offset vector `(3.00005, -0.00004)` is formatted with
both components rounded to 4 decimal places and negative zero normalized to
positive zero, producing the token `I3.0001J0.0`. -/
theorem C9_offset_formatting :
    offset_word ⟨3.00005, -0.00004⟩ = "I3.0001J0.0".data :=
  offset_word_c9

/-- C10: an arc-move line with a radius token whose end point (built from
the axis pairs) projects to the current position's 2D projection -- chord
length 0 -- with nonnegative radius is processed to the division-by-zero
error (not to `NoIntersection`). -/
theorem C10_zero_chord (position : Point3D) (line : List Char) (code_digit : Char)
    (radius_word : List Char) (q : ℤ × ℕ) (arc_end_point3 : Point3D)
    (hm : matchG01 line = false)
    (hg : g23digit line = some code_digit)
    (hr : (findRadii line).head? = some radius_word)
    (hp : parseFloat radius_word = some q)
    (hu : update_from_axes {} (findAxes line) = some arc_end_point3)
    (hq : 0 ≤ decVal q)
    (h2d : arc_end_point3.point2d = position.point2d) :
    push_line position line = .error .zeroDivision := by
  rw [push_line_arc position line code_digit radius_word q arc_end_point3 hm hg hr hp hu,
    h2d, arc_center_zero_dist _ _ _ _ (distance_self _) hq]
  rfl

/-- C10 witness: from position `(3, 4, 0)` the line `G2 X3 Y4 R5` has end
point `(3, 4)` equal to the current 2D position and fails with the
division-by-zero error. -/
theorem C10_zero_chord_witness :
    push_line ⟨3, 4, 0⟩ ("G2 X3 Y4 R5".data) = .error .zeroDivision :=
  C10_zero_chord ⟨3, 4, 0⟩ ("G2 X3 Y4 R5".data) '2' ("5".data) (5, 0) ⟨3, 4, 0⟩
    (by decide) (by decide) (by decide) (by decide)
    (by rw [show findAxes ("G2 X3 Y4 R5".data) = [('X', "3".data), ('Y', "4".data)]
          from by decide]
        exact upd_x3_y4)
    (by norm_num [decVal]) rfl

end GcodeTransform
